import Mathlib

/-!
# pgbelt `pg-compare/insert.js`: the bulk seed inserter

A shallow embedding of `insertRecords(pgClient, numRecords)` and theorems about
the records it generates, the client operations it performs and the lines it
logs.

## Modelling conventions

* `numRecords` and the loop index `i` are natural numbers.  The source runs on
  JavaScript numbers; the model agrees with it for integer `numRecords` below
  `2^53`, where `i <= numRecords`, `i++`, `i % 3` and `65 + (i % 3)` are exact
  and the template literal of the integer is its decimal numeral.  Larger or
  fractional arguments are outside the model.
* The database client is an arbitrary deterministic state machine: each of
  `connect`, `query` and `end` maps the client state to a new state together
  with the way the awaited promise settled (resolved, or rejected with some
  error value).
* A run yields a trace: the client operations performed, each with its
  settlement, interleaved with the console output, in program order.
-/

namespace PgCompare

/-! ## Data model -/

/-- How an awaited promise settled. -/
inductive Outcome (ε : Type) where
  | resolved : Outcome ε
  | rejected (err : ε) : Outcome ε
  deriving DecidableEq

/-- What a client operation hands back: the new client state and the
settlement of the promise. -/
structure Reply (σ ε : Type) where
  state : σ
  outcome : Outcome ε

/-- The part of `pg.Client` that `insertRecords` uses. -/
structure Client (σ ε : Type) where
  connect : σ → Reply σ ε
  query : σ → String → List String → Reply σ ε
  end_ : σ → Reply σ ε

/-- Observable events of a run, in program order. -/
inductive Event (ε : Type) where
  | connect (outcome : Outcome ε) : Event ε
  | query (sql : String) (values : List String) (outcome : Outcome ε) : Event ε
  | end_ (outcome : Outcome ε) : Event ε
  | log (line : String) : Event ε
  | error (label : String) (err : ε) : Event ε
  deriving DecidableEq

/-- State of an execution: the client state, the events so far, and the
exception in flight, if any. -/
structure Exec (σ ε : Type) where
  state : σ
  trace : List (Event ε)
  thrown : Option ε

/-- Result of a call of `insertRecords`: final client state, all events, and
the settlement of the promise the async function returns. -/
structure Run (σ ε : Type) where
  state : σ
  trace : List (Event ε)
  result : Outcome ε

/-! ## Record generation (lines 27-31) -/

/-- `String.fromCharCode(n)`: the code unit is `n` reduced to 16 bits. -/
def fromCharCode (n : Nat) : String :=
  String.singleton (Char.ofNat (n % 65536))

/-- Line 27: the template literal giving the product name. -/
def productName (i : Nat) : String :=
  "Product " ++ toString i

/-- Line 28: the template literal giving the product type. -/
def productType (i : Nat) : String :=
  "Type " ++ fromCharCode (65 + (i % 3))

/-- Line 30: the statement text. -/
def insertQuery : String :=
  "INSERT INTO products (name, type) VALUES ($1, $2)"

/-- Line 31: the positional values. -/
def insertValues (i : Nat) : List String :=
  [productName i, productType i]

/-- Line 34: the confirmation line. -/
def insertedLine (i : Nat) : String :=
  "Inserted: " ++ productName i ++ ", " ++ productType i

/-- Lines 37-39: the summary line. -/
def summaryLine (numRecords : Nat) : String :=
  "Successfully inserted " ++ toString numRecords ++ " records into the products table"

/-! ## The function `insertRecords` (lines 21-46) -/

/-- Lines 26-35: the `for` loop, entered with loop variable `i`. -/
def insertLoop {σ ε : Type} (c : Client σ ε) (numRecords : Nat) (i : Nat) (s : σ) :
    Exec σ ε :=
  if i ≤ numRecords then
    let r := c.query s insertQuery (insertValues i)
    match r.outcome with
    | Outcome.resolved =>
      let rest := insertLoop c numRecords (i + 1) r.state
      { state := rest.state
        trace := Event.query insertQuery (insertValues i) Outcome.resolved ::
          Event.log (insertedLine i) :: rest.trace
        thrown := rest.thrown }
    | Outcome.rejected e =>
      { state := r.state
        trace := [Event.query insertQuery (insertValues i) (Outcome.rejected e)]
        thrown := some e }
  else
    { state := s, trace := [], thrown := none }
termination_by numRecords + 1 - i
decreasing_by omega

/-- Lines 22-39: the `try` block. -/
def tryBlock {σ ε : Type} (c : Client σ ε) (numRecords : Nat) (s : σ) : Exec σ ε :=
  let r := c.connect s
  match r.outcome with
  | Outcome.rejected e =>
    { state := r.state, trace := [Event.connect (Outcome.rejected e)], thrown := some e }
  | Outcome.resolved =>
    let body := insertLoop c numRecords 1 r.state
    match body.thrown with
    | some e =>
      { state := body.state
        trace := Event.connect Outcome.resolved ::
          Event.log "Connected to the database" :: body.trace
        thrown := some e }
    | none =>
      { state := body.state
        trace := Event.connect Outcome.resolved ::
          Event.log "Connected to the database" ::
            (body.trace ++ [Event.log (summaryLine numRecords)])
        thrown := none }

/-- Lines 40-42: the `catch` clause, applied to the outcome of the `try` block. -/
def catchBlock {σ ε : Type} (x : Exec σ ε) : Exec σ ε :=
  match x.thrown with
  | some e =>
    { state := x.state
      trace := x.trace ++ [Event.error "Error inserting records:" e]
      thrown := none }
  | none => x

/-- Lines 42-45: the `finally` clause, applied to what `try`/`catch` left. -/
def finallyBlock {σ ε : Type} (c : Client σ ε) (x : Exec σ ε) : Run σ ε :=
  let r := c.end_ x.state
  match r.outcome with
  | Outcome.rejected e =>
    { state := r.state
      trace := x.trace ++ [Event.end_ (Outcome.rejected e)]
      result := Outcome.rejected e }
  | Outcome.resolved =>
    { state := r.state
      trace := x.trace ++
        [Event.end_ Outcome.resolved, Event.log "Disconnected from the database"]
      result :=
        match x.thrown with
        | some e => Outcome.rejected e
        | none => Outcome.resolved }

/-- Lines 21-46: `insertRecords(pgClient, numRecords)`, started with the client
in state `s`. -/
def insertRecords {σ ε : Type} (c : Client σ ε) (numRecords : Nat) (s : σ) : Run σ ε :=
  finallyBlock c (catchBlock (tryBlock c numRecords s))

/-! ## Observations on traces -/

/-- The three kinds of client operation. -/
inductive Op where
  | connect : Op
  | query : Op
  | end_ : Op
  deriving DecidableEq

/-- The client operation an event stands for, if it is one. -/
def Event.op {ε : Type} : Event ε → Option Op
  | Event.connect _ => some Op.connect
  | Event.query _ _ _ => some Op.query
  | Event.end_ _ => some Op.end_
  | Event.log _ => none
  | Event.error _ _ => none

/-- The arguments of a `query` call. -/
def Event.call {ε : Type} : Event ε → Option (String × List String)
  | Event.query q v _ => some (q, v)
  | _ => none

/-- The values of a `query` call that resolved: a row written to the table. -/
def Event.row {ε : Type} : Event ε → Option (List String)
  | Event.query _ v Outcome.resolved => some v
  | _ => none

/-- The line of a `console.log` call. -/
def Event.line {ε : Type} : Event ε → Option String
  | Event.log l => some l
  | _ => none

/-- The arguments of a `console.error` call. -/
def Event.report {ε : Type} : Event ε → Option (String × ε)
  | Event.error l e => some (l, e)
  | _ => none

/-- The client operations of a trace, in order. -/
def clientOps {ε : Type} (tr : List (Event ε)) : List Op :=
  tr.filterMap Event.op

/-- The statement text and values of every `query` call of a trace, in order. -/
def queryCalls {ε : Type} (tr : List (Event ε)) : List (String × List String) :=
  tr.filterMap Event.call

/-- The rows written: the values of every `query` call that resolved, in order. -/
def insertedRows {ε : Type} (tr : List (Event ε)) : List (List String) :=
  tr.filterMap Event.row

/-- The lines written by `console.log`, in order. -/
def logLines {ε : Type} (tr : List (Event ε)) : List String :=
  tr.filterMap Event.line

/-- The reports written by `console.error`, in order. -/
def errorReports {ε : Type} (tr : List (Event ε)) : List (String × ε) :=
  tr.filterMap Event.report

/-- Client state after the loop, entered at index `i` in state `st`, has had
`m` queries resolve. -/
def loopState {σ ε : Type} (c : Client σ ε) (i : Nat) (st : σ) : Nat → σ
  | 0 => st
  | m + 1 => (c.query (loopState c i st m) insertQuery (insertValues (i + m))).state

/-- Settlement of the query for index `i + m` in that loop. -/
def loopOutcome {σ ε : Type} (c : Client σ ε) (i : Nat) (st : σ) (m : Nat) : Outcome ε :=
  (c.query (loopState c i st m) insertQuery (insertValues (i + m))).outcome

/-- Settlement of the query for index `k ≥ 1` in a call started in state `s`,
given that the call gets as far as issuing it. -/
def queryOutcome {σ ε : Type} (c : Client σ ε) (s : σ) (k : Nat) : Outcome ε :=
  loopOutcome c 1 (c.connect s).state (k - 1)

/-- Events of `n` successful iterations starting at index `i`. -/
def successSteps (ε : Type) (i : Nat) : Nat → List (Event ε)
  | 0 => []
  | n + 1 =>
    Event.query insertQuery (insertValues i) Outcome.resolved ::
      Event.log (insertedLine i) :: successSteps ε (i + 1) n

/-- Events of the `finally` clause when `end()` settles as `o`. -/
def endEvents {ε : Type} (o : Outcome ε) : List (Event ε) :=
  match o with
  | Outcome.resolved =>
    [Event.end_ Outcome.resolved, Event.log "Disconnected from the database"]
  | Outcome.rejected e => [Event.end_ (Outcome.rejected e)]

/-! ## Behaviours of the client in a call -/

/-- In the call started in state `s`, `connect()` and the queries for all the
indices `1..numRecords` resolve. -/
def Succeeds {σ ε : Type} (c : Client σ ε) (numRecords : Nat) (s : σ) : Prop :=
  (c.connect s).outcome = Outcome.resolved ∧
    ∀ k, 1 ≤ k → k ≤ numRecords → queryOutcome c s k = Outcome.resolved

/-- In the call started in state `s`, the query for index `k` rejects with `e`
after `connect()` and the queries for the indices below `k` resolved. -/
def QueryFails {σ ε : Type} (c : Client σ ε) (numRecords : Nat) (s : σ) (k : Nat) (e : ε) :
    Prop :=
  (c.connect s).outcome = Outcome.resolved ∧ 1 ≤ k ∧ k ≤ numRecords ∧
    (∀ j, 1 ≤ j → j < k → queryOutcome c s j = Outcome.resolved) ∧
    queryOutcome c s k = Outcome.rejected e

/-- In the call started in state `s`, `connect()` or a query rejects, with `e`. -/
def Fails {σ ε : Type} (c : Client σ ε) (numRecords : Nat) (s : σ) (e : ε) : Prop :=
  (c.connect s).outcome = Outcome.rejected e ∨ ∃ k, QueryFails c numRecords s k e

/-- Whether the event is a call of `end()`. -/
def Event.isEnd {ε : Type} : Event ε → Bool
  | Event.end_ _ => true
  | _ => false

/-- Whether the event is a `console.error` report. -/
def Event.isError {ε : Type} : Event ε → Bool
  | Event.error _ _ => true
  | _ => false

/-- Whether some event satisfying `p` comes earlier in the trace than some event
satisfying `q`. -/
def occursBefore {ε : Type} (p q : Event ε → Bool) : List (Event ε) → Bool
  | [] => false
  | x :: rest => (p x && rest.any q) || occursBefore p q rest

/-! ## Sample clients -/

/-- A client whose state counts the queries it has received.  `connect()`
resolves iff `connectOk`, the query number `failAt` rejects (none does when
`failAt = 0`), and `end()` resolves iff `endOk`. -/
def scripted (connectOk : Bool) (failAt : Nat) (endOk : Bool) : Client Nat String where
  connect := fun n =>
    { state := n
      outcome := if connectOk then Outcome.resolved else Outcome.rejected "connection refused" }
  query := fun n _ _ =>
    { state := n + 1
      outcome := if n + 1 = failAt then Outcome.rejected "insert failed" else Outcome.resolved }
  end_ := fun n =>
    { state := n
      outcome := if endOk then Outcome.resolved else Outcome.rejected "end failed" }

/-- A client whose state counts the queries it has received and whose query
number `failAt` rejects with an error value that names the row it was given:
`duplicate key: ` followed by the first of the values.  All its other
operations resolve. -/
def echoing (failAt : Nat) : Client Nat String where
  connect := fun n => { state := n, outcome := Outcome.resolved }
  query := fun n _ values =>
    { state := n + 1
      outcome :=
        if n + 1 = failAt then Outcome.rejected ("duplicate key: " ++ values.headD "")
        else Outcome.resolved }
  end_ := fun n => { state := n, outcome := Outcome.resolved }

/-! ## The loop -/

section

variable {σ ε : Type}

theorem insertLoop_done (c : Client σ ε) (numRecords i : Nat) (s : σ)
    (h : ¬ i ≤ numRecords) :
    insertLoop c numRecords i s = { state := s, trace := [], thrown := none } := by
  rw [insertLoop, if_neg h]

theorem insertLoop_resolved (c : Client σ ε) (numRecords i : Nat) (s : σ)
    (h : i ≤ numRecords)
    (hq : (c.query s insertQuery (insertValues i)).outcome = Outcome.resolved) :
    insertLoop c numRecords i s =
      { state := (insertLoop c numRecords (i + 1)
          (c.query s insertQuery (insertValues i)).state).state
        trace := Event.query insertQuery (insertValues i) Outcome.resolved ::
          Event.log (insertedLine i) ::
            (insertLoop c numRecords (i + 1)
              (c.query s insertQuery (insertValues i)).state).trace
        thrown := (insertLoop c numRecords (i + 1)
          (c.query s insertQuery (insertValues i)).state).thrown } := by
  rw [insertLoop, if_pos h]
  simp only [hq]

theorem insertLoop_rejected (c : Client σ ε) (numRecords i : Nat) (s : σ) (e : ε)
    (h : i ≤ numRecords)
    (hq : (c.query s insertQuery (insertValues i)).outcome = Outcome.rejected e) :
    insertLoop c numRecords i s =
      { state := (c.query s insertQuery (insertValues i)).state
        trace := [Event.query insertQuery (insertValues i) (Outcome.rejected e)]
        thrown := some e } := by
  rw [insertLoop, if_pos h]
  simp only [hq]

theorem loopState_shift (c : Client σ ε) (i : Nat) (st : σ) (m : Nat) :
    loopState c i st (m + 1) =
      loopState c (i + 1) (c.query st insertQuery (insertValues i)).state m := by
  induction m with
  | zero => rfl
  | succ m ih =>
    show (c.query (loopState c i st (m + 1)) insertQuery (insertValues (i + (m + 1)))).state = _
    rw [ih]
    show _ = (c.query _ insertQuery (insertValues (i + 1 + m))).state
    rw [show i + (m + 1) = i + 1 + m by omega]

theorem loopOutcome_shift (c : Client σ ε) (i : Nat) (st : σ) (m : Nat) :
    loopOutcome c i st (m + 1) =
      loopOutcome c (i + 1) (c.query st insertQuery (insertValues i)).state m := by
  unfold loopOutcome
  rw [loopState_shift, show i + (m + 1) = i + 1 + m by omega]

/-- The loop when every query it issues resolves. -/
theorem insertLoop_all_resolved (c : Client σ ε) (numRecords : Nat) :
    ∀ (n i : Nat) (st : σ), i + n = numRecords + 1 →
      (∀ m, i + m ≤ numRecords → loopOutcome c i st m = Outcome.resolved) →
      insertLoop c numRecords i st =
        { state := loopState c i st n, trace := successSteps ε i n, thrown := none } := by
  intro n
  induction n with
  | zero =>
    intro i st hn _
    rw [insertLoop_done c numRecords i st (by omega)]
    rfl
  | succ n ih =>
    intro i st hn hall
    have h0 : (c.query st insertQuery (insertValues i)).outcome = Outcome.resolved :=
      hall 0 (by omega)
    rw [insertLoop_resolved c numRecords i st (by omega) h0]
    rw [ih (i + 1) _ (by omega) (fun m hm => by
      rw [← loopOutcome_shift]; exact hall (m + 1) (by omega))]
    simp only [successSteps, loopState_shift]

/-- The loop when the query for index `i + m` is the first to reject. -/
theorem insertLoop_first_rejected (c : Client σ ε) (numRecords : Nat) (e : ε) :
    ∀ (m i : Nat) (st : σ), i + m ≤ numRecords →
      (∀ j, j < m → loopOutcome c i st j = Outcome.resolved) →
      loopOutcome c i st m = Outcome.rejected e →
      insertLoop c numRecords i st =
        { state := loopState c i st (m + 1)
          trace := successSteps ε i m ++
            [Event.query insertQuery (insertValues (i + m)) (Outcome.rejected e)]
          thrown := some e } := by
  intro m
  induction m with
  | zero =>
    intro i st hm _ hrej
    rw [insertLoop_rejected c numRecords i st e (by omega) hrej]
    rfl
  | succ m ih =>
    intro i st hm hprev hrej
    have h0 : (c.query st insertQuery (insertValues i)).outcome = Outcome.resolved :=
      hprev 0 (by omega)
    rw [insertLoop_resolved c numRecords i st (by omega) h0]
    rw [ih (i + 1) _ (by omega)
      (fun j hj => by rw [← loopOutcome_shift]; exact hprev (j + 1) (by omega))
      (by rw [← loopOutcome_shift]; exact hrej)]
    simp only [successSteps, loopState_shift, List.cons_append]
    rw [show i + 1 + m = i + (m + 1) by omega]

/-! ## The whole call -/

theorem outcome_cases (o : Outcome ε) : o = Outcome.resolved ∨ ∃ e, o = Outcome.rejected e := by
  cases o with
  | resolved => exact Or.inl rfl
  | rejected e => exact Or.inr ⟨e, rfl⟩

/-- Either every query of the loop resolves, or there is a first one that rejects. -/
theorem loop_dichotomy (c : Client σ ε) (numRecords i : Nat) (st : σ) :
    (∀ m, i + m ≤ numRecords → loopOutcome c i st m = Outcome.resolved) ∨
    ∃ m e, i + m ≤ numRecords ∧ (∀ j, j < m → loopOutcome c i st j = Outcome.resolved) ∧
      loopOutcome c i st m = Outcome.rejected e := by
  by_cases h : ∀ m, i + m ≤ numRecords → loopOutcome c i st m = Outcome.resolved
  · exact Or.inl h
  · right
    have hex : ∃ m, i + m ≤ numRecords ∧ loopOutcome c i st m ≠ Outcome.resolved := by
      by_contra hne
      apply h
      intro m hm
      by_contra hr
      exact hne ⟨m, hm, hr⟩
    classical
    obtain ⟨hle, hne⟩ := Nat.find_spec hex
    rcases outcome_cases (loopOutcome c i st (Nat.find hex)) with hr | ⟨e, he⟩
    · exact absurd hr hne
    · refine ⟨Nat.find hex, e, hle, ?_, he⟩
      intro j hj
      by_contra hjr
      exact Nat.find_min hex hj ⟨by omega, hjr⟩

theorem catchBlock_thrown (x : Exec σ ε) : (catchBlock x).thrown = none := by
  unfold catchBlock
  cases h : x.thrown <;> simp [h]

theorem finallyBlock_trace (c : Client σ ε) (x : Exec σ ε) :
    (finallyBlock c x).trace = x.trace ++ endEvents (c.end_ x.state).outcome := by
  unfold finallyBlock endEvents
  cases h : (c.end_ x.state).outcome <;> simp [h]

theorem finallyBlock_result (c : Client σ ε) (x : Exec σ ε) (hx : x.thrown = none) :
    (finallyBlock c x).result = (c.end_ x.state).outcome := by
  unfold finallyBlock
  cases h : (c.end_ x.state).outcome <;> simp [h, hx]

/-- The promise of `insertRecords` settles the way that of `end()` does. -/
theorem insertRecords_result (c : Client σ ε) (numRecords : Nat) (s : σ) :
    (insertRecords c numRecords s).result =
      (c.end_ (catchBlock (tryBlock c numRecords s)).state).outcome :=
  finallyBlock_result c _ (catchBlock_thrown _)

theorem insertRecords_trace (c : Client σ ε) (numRecords : Nat) (s : σ) :
    (insertRecords c numRecords s).trace =
      (catchBlock (tryBlock c numRecords s)).trace ++
        endEvents (insertRecords c numRecords s).result := by
  rw [insertRecords_result]
  exact finallyBlock_trace c _

/-- Trace of a call in which `connect()` rejects. -/
theorem trace_connect_rejected (c : Client σ ε) (numRecords : Nat) (s : σ) (e : ε)
    (hc : (c.connect s).outcome = Outcome.rejected e) :
    (insertRecords c numRecords s).trace =
      Event.connect (Outcome.rejected e) :: Event.error "Error inserting records:" e ::
        endEvents (insertRecords c numRecords s).result := by
  rw [insertRecords_trace]
  simp [tryBlock, catchBlock, hc]

/-- Trace of a call in which `connect()` and all `numRecords` queries resolve. -/
theorem trace_all_resolved (c : Client σ ε) (numRecords : Nat) (s : σ)
    (hc : (c.connect s).outcome = Outcome.resolved)
    (hq : ∀ k, 1 ≤ k → k ≤ numRecords → queryOutcome c s k = Outcome.resolved) :
    (insertRecords c numRecords s).trace =
      Event.connect Outcome.resolved :: Event.log "Connected to the database" ::
        (successSteps ε 1 numRecords ++ Event.log (summaryLine numRecords) ::
          endEvents (insertRecords c numRecords s).result) := by
  rw [insertRecords_trace]
  have hl := insertLoop_all_resolved c numRecords numRecords 1 (c.connect s).state (by omega)
    (fun m hm => by
      have := hq (m + 1) (by omega) (by omega)
      simpa [queryOutcome] using this)
  simp [tryBlock, catchBlock, hc, hl]

/-- Trace of a call in which `connect()` resolves and the query for index `k`
is the first to reject. -/
theorem trace_query_rejected (c : Client σ ε) (numRecords : Nat) (s : σ) (k : Nat) (e : ε)
    (hc : (c.connect s).outcome = Outcome.resolved)
    (hk1 : 1 ≤ k) (hkN : k ≤ numRecords)
    (hq : ∀ j, 1 ≤ j → j < k → queryOutcome c s j = Outcome.resolved)
    (hf : queryOutcome c s k = Outcome.rejected e) :
    (insertRecords c numRecords s).trace =
      Event.connect Outcome.resolved :: Event.log "Connected to the database" ::
        (successSteps ε 1 (k - 1) ++
          Event.query insertQuery (insertValues k) (Outcome.rejected e) ::
            Event.error "Error inserting records:" e ::
              endEvents (insertRecords c numRecords s).result) := by
  rw [insertRecords_trace]
  have hl := insertLoop_first_rejected c numRecords e (k - 1) 1 (c.connect s).state (by omega)
    (fun j hj => by
      have := hq (j + 1) (by omega) (by omega)
      simpa [queryOutcome] using this)
    (by simpa [queryOutcome] using hf)
  rw [show 1 + (k - 1) = k by omega] at hl
  simp [tryBlock, catchBlock, hc, hl]

/-- Every call is of one of the three kinds above. -/
theorem run_cases (c : Client σ ε) (numRecords : Nat) (s : σ) :
    (∃ e, (c.connect s).outcome = Outcome.rejected e) ∨
    ((c.connect s).outcome = Outcome.resolved ∧
      ∀ k, 1 ≤ k → k ≤ numRecords → queryOutcome c s k = Outcome.resolved) ∨
    ((c.connect s).outcome = Outcome.resolved ∧
      ∃ k e, 1 ≤ k ∧ k ≤ numRecords ∧
        (∀ j, 1 ≤ j → j < k → queryOutcome c s j = Outcome.resolved) ∧
        queryOutcome c s k = Outcome.rejected e) := by
  rcases outcome_cases (c.connect s).outcome with hc | ⟨e, hc⟩
  · right
    rcases loop_dichotomy c numRecords 1 (c.connect s).state with hall | ⟨m, e, hm, hprev, hrej⟩
    · left
      refine ⟨hc, fun k hk1 hkN => ?_⟩
      unfold queryOutcome
      exact hall (k - 1) (by omega)
    · right
      refine ⟨hc, m + 1, e, by omega, by omega, fun j hj1 hjk => ?_, ?_⟩
      · unfold queryOutcome
        exact hprev (j - 1) (by omega)
      · unfold queryOutcome
        simpa using hrej
  · exact Or.inl ⟨e, hc⟩

/-! ## Observations on the traces of a call -/

theorem clientOps_successSteps (i n : Nat) :
    clientOps (successSteps ε i n) = List.replicate n Op.query := by
  induction n generalizing i with
  | zero => rfl
  | succ n ih =>
    have h := ih (i + 1)
    simp only [clientOps] at h
    simp [clientOps, successSteps, Event.op, List.replicate_succ, h]

theorem queryCalls_successSteps (i n : Nat) :
    queryCalls (successSteps ε i n) =
      (List.range' i n).map (fun k => (insertQuery, insertValues k)) := by
  induction n generalizing i with
  | zero => rfl
  | succ n ih =>
    have h := ih (i + 1)
    simp only [queryCalls] at h
    simp [queryCalls, successSteps, Event.call, List.range'_succ, h]

theorem insertedRows_successSteps (i n : Nat) :
    insertedRows (successSteps ε i n) = (List.range' i n).map insertValues := by
  induction n generalizing i with
  | zero => rfl
  | succ n ih =>
    have h := ih (i + 1)
    simp only [insertedRows] at h
    simp [insertedRows, successSteps, Event.row, List.range'_succ, h]

theorem logLines_successSteps (i n : Nat) :
    logLines (successSteps ε i n) = (List.range' i n).map insertedLine := by
  induction n generalizing i with
  | zero => rfl
  | succ n ih =>
    have h := ih (i + 1)
    simp only [logLines] at h
    simp [logLines, successSteps, Event.line, List.range'_succ, h]

theorem errorReports_successSteps (i n : Nat) :
    errorReports (successSteps ε i n) = [] := by
  induction n generalizing i with
  | zero => rfl
  | succ n ih =>
    have h := ih (i + 1)
    simp only [errorReports] at h
    simp [errorReports, successSteps, Event.report, h]

theorem clientOps_endEvents (o : Outcome ε) : clientOps (endEvents o) = [Op.end_] := by
  cases o <;> rfl

theorem queryCalls_endEvents (o : Outcome ε) : queryCalls (endEvents o) = [] := by
  cases o <;> rfl

theorem insertedRows_endEvents (o : Outcome ε) : insertedRows (endEvents o) = [] := by
  cases o <;> rfl

theorem errorReports_endEvents (o : Outcome ε) : errorReports (endEvents o) = [] := by
  cases o <;> rfl

theorem logLines_endEvents (o : Outcome ε) :
    logLines (endEvents o) =
      match o with
      | Outcome.resolved => ["Disconnected from the database"]
      | Outcome.rejected _ => [] := by
  cases o <;> rfl

theorem range'_succ_right (i n : Nat) :
    List.range' i (n + 1) = List.range' i n ++ [i + n] := by
  rw [List.range'_concat]
  simp

theorem clientOps_all_resolved (c : Client σ ε) (numRecords : Nat) (s : σ)
    (hc : (c.connect s).outcome = Outcome.resolved)
    (hq : ∀ k, 1 ≤ k → k ≤ numRecords → queryOutcome c s k = Outcome.resolved) :
    clientOps (insertRecords c numRecords s).trace =
      Op.connect :: (List.replicate numRecords Op.query ++ [Op.end_]) := by
  rw [trace_all_resolved c numRecords s hc hq]
  have h1 := clientOps_endEvents (insertRecords c numRecords s).result
  have h2 := clientOps_successSteps (ε := ε) 1 numRecords
  simp only [clientOps] at h1 h2
  simp [clientOps, Event.op, h1, h2, List.filterMap_append]

theorem queryCalls_all_resolved (c : Client σ ε) (numRecords : Nat) (s : σ)
    (hc : (c.connect s).outcome = Outcome.resolved)
    (hq : ∀ k, 1 ≤ k → k ≤ numRecords → queryOutcome c s k = Outcome.resolved) :
    queryCalls (insertRecords c numRecords s).trace =
      (List.range' 1 numRecords).map (fun k => (insertQuery, insertValues k)) := by
  rw [trace_all_resolved c numRecords s hc hq]
  have h1 := queryCalls_endEvents (insertRecords c numRecords s).result
  have h2 := queryCalls_successSteps (ε := ε) 1 numRecords
  simp only [queryCalls] at h1 h2
  simp [queryCalls, Event.call, h1, h2, List.filterMap_append]

theorem insertedRows_all_resolved (c : Client σ ε) (numRecords : Nat) (s : σ)
    (hc : (c.connect s).outcome = Outcome.resolved)
    (hq : ∀ k, 1 ≤ k → k ≤ numRecords → queryOutcome c s k = Outcome.resolved) :
    insertedRows (insertRecords c numRecords s).trace =
      (List.range' 1 numRecords).map insertValues := by
  rw [trace_all_resolved c numRecords s hc hq]
  have h1 := insertedRows_endEvents (insertRecords c numRecords s).result
  have h2 := insertedRows_successSteps (ε := ε) 1 numRecords
  simp only [insertedRows] at h1 h2
  simp [insertedRows, Event.row, h1, h2, List.filterMap_append]

theorem clientOps_query_rejected (c : Client σ ε) (numRecords : Nat) (s : σ) (k : Nat) (e : ε)
    (hc : (c.connect s).outcome = Outcome.resolved)
    (hk1 : 1 ≤ k) (hkN : k ≤ numRecords)
    (hq : ∀ j, 1 ≤ j → j < k → queryOutcome c s j = Outcome.resolved)
    (hf : queryOutcome c s k = Outcome.rejected e) :
    clientOps (insertRecords c numRecords s).trace =
      Op.connect :: (List.replicate k Op.query ++ [Op.end_]) := by
  rw [trace_query_rejected c numRecords s k e hc hk1 hkN hq hf]
  have h1 := clientOps_endEvents (insertRecords c numRecords s).result
  have h2 := clientOps_successSteps (ε := ε) 1 (k - 1)
  simp only [clientOps] at h1 h2
  obtain ⟨k, rfl⟩ : ∃ j, k = j + 1 := ⟨k - 1, by omega⟩
  simp only [Nat.add_sub_cancel] at h2
  simp [clientOps, Event.op, h1, h2, List.filterMap_append, List.replicate_succ']

theorem queryCalls_query_rejected (c : Client σ ε) (numRecords : Nat) (s : σ) (k : Nat) (e : ε)
    (hc : (c.connect s).outcome = Outcome.resolved)
    (hk1 : 1 ≤ k) (hkN : k ≤ numRecords)
    (hq : ∀ j, 1 ≤ j → j < k → queryOutcome c s j = Outcome.resolved)
    (hf : queryOutcome c s k = Outcome.rejected e) :
    queryCalls (insertRecords c numRecords s).trace =
      (List.range' 1 k).map (fun j => (insertQuery, insertValues j)) := by
  rw [trace_query_rejected c numRecords s k e hc hk1 hkN hq hf]
  have h1 := queryCalls_endEvents (insertRecords c numRecords s).result
  have h2 := queryCalls_successSteps (ε := ε) 1 (k - 1)
  simp only [queryCalls] at h1 h2
  obtain ⟨k, rfl⟩ : ∃ j, k = j + 1 := ⟨k - 1, by omega⟩
  simp only [Nat.add_sub_cancel] at h2
  simp [queryCalls, Event.call, h1, h2, List.filterMap_append, range'_succ_right,
    Nat.add_comm]

theorem insertedRows_query_rejected (c : Client σ ε) (numRecords : Nat) (s : σ) (k : Nat)
    (e : ε) (hc : (c.connect s).outcome = Outcome.resolved)
    (hk1 : 1 ≤ k) (hkN : k ≤ numRecords)
    (hq : ∀ j, 1 ≤ j → j < k → queryOutcome c s j = Outcome.resolved)
    (hf : queryOutcome c s k = Outcome.rejected e) :
    insertedRows (insertRecords c numRecords s).trace =
      (List.range' 1 (k - 1)).map insertValues := by
  rw [trace_query_rejected c numRecords s k e hc hk1 hkN hq hf]
  have h1 := insertedRows_endEvents (insertRecords c numRecords s).result
  have h2 := insertedRows_successSteps (ε := ε) 1 (k - 1)
  simp only [insertedRows] at h1 h2
  simp [insertedRows, Event.row, h1, h2, List.filterMap_append]

theorem clientOps_connect_rejected (c : Client σ ε) (numRecords : Nat) (s : σ) (e : ε)
    (hc : (c.connect s).outcome = Outcome.rejected e) :
    clientOps (insertRecords c numRecords s).trace = [Op.connect, Op.end_] := by
  rw [trace_connect_rejected c numRecords s e hc]
  have := clientOps_endEvents (insertRecords c numRecords s).result
  simp only [clientOps] at this
  simp [clientOps, Event.op, this]

theorem queryCalls_connect_rejected (c : Client σ ε) (numRecords : Nat) (s : σ) (e : ε)
    (hc : (c.connect s).outcome = Outcome.rejected e) :
    queryCalls (insertRecords c numRecords s).trace = [] := by
  rw [trace_connect_rejected c numRecords s e hc]
  have := queryCalls_endEvents (insertRecords c numRecords s).result
  simp only [queryCalls] at this
  simp [queryCalls, Event.call, this]

theorem insertedRows_connect_rejected (c : Client σ ε) (numRecords : Nat) (s : σ) (e : ε)
    (hc : (c.connect s).outcome = Outcome.rejected e) :
    insertedRows (insertRecords c numRecords s).trace = [] := by
  rw [trace_connect_rejected c numRecords s e hc]
  have := insertedRows_endEvents (insertRecords c numRecords s).result
  simp only [insertedRows] at this
  simp [insertedRows, Event.row, this]

/-- Client operations and `query` calls of an arbitrary call. -/
theorem ops_of_run (c : Client σ ε) (numRecords : Nat) (s : σ) :
    ∃ m, m ≤ numRecords ∧
      clientOps (insertRecords c numRecords s).trace =
        Op.connect :: (List.replicate m Op.query ++ [Op.end_]) ∧
      queryCalls (insertRecords c numRecords s).trace =
        (List.range' 1 m).map (fun k => (insertQuery, insertValues k)) := by
  rcases run_cases c numRecords s with ⟨e, hc⟩ | ⟨hc, hq⟩ | ⟨hc, k, e, hk1, hkN, hq, hf⟩
  · exact ⟨0, Nat.zero_le _, clientOps_connect_rejected c numRecords s e hc,
      queryCalls_connect_rejected c numRecords s e hc⟩
  · exact ⟨numRecords, le_refl _, clientOps_all_resolved c numRecords s hc hq,
      queryCalls_all_resolved c numRecords s hc hq⟩
  · exact ⟨k, hkN, clientOps_query_rejected c numRecords s k e hc hk1 hkN hq hf,
      queryCalls_query_rejected c numRecords s k e hc hk1 hkN hq hf⟩

/-! ## Generated records -/

theorem fromCharCode_letter (i : Nat) :
    fromCharCode (65 + i % 3) = String.singleton (Char.ofNat (65 + i % 3)) := by
  unfold fromCharCode
  rw [Nat.mod_eq_of_lt (by omega)]

theorem productType_cycle (i : Nat) :
    ["Type A", "Type B", "Type C"][i % 3]? = some (productType i) := by
  have h : i % 3 < 3 := Nat.mod_lt _ (by decide)
  unfold productType
  interval_cases (i % 3) <;> rfl

/-- C1: the record generated for loop index `i` has name `"Product "` followed
by the decimal numeral of `i` and type `"Type "` followed by the character with
code `65 + (i mod 3)`, that is `Type A`, `Type B`, `Type C` for `i mod 3 = 0, 1, 2`;
the type has period 3; and in every call, whatever the client does, the `j`-th
query carries the record of index `j`. -/
theorem generated_record (i : Nat) :
    productName i = "Product " ++ Nat.repr i ∧
    productType i = "Type " ++ String.singleton (Char.ofNat (65 + i % 3)) ∧
    ["Type A", "Type B", "Type C"][i % 3]? = some (productType i) ∧
    productType (i + 3) = productType i ∧
    productType 3 = "Type A" ∧ productType 4 = "Type B" ∧
    productType 5 = "Type C" ∧ productType 6 = "Type A" ∧
    insertValues i = [productName i, productType i] ∧
    ∀ (c : Client σ ε) (numRecords : Nat) (s : σ),
      queryCalls (insertRecords c numRecords s).trace =
        (List.range' 1 (queryCalls (insertRecords c numRecords s).trace).length).map
          (fun j => (insertQuery, [productName j, productType j])) := by
  refine ⟨rfl, ?_, productType_cycle i, ?_, rfl, rfl, rfl, rfl, rfl, ?_⟩
  · unfold productType
    rw [fromCharCode_letter]
  · unfold productType
    rw [Nat.add_mod_right]
  · intro c numRecords s
    obtain ⟨m, -, -, hq⟩ := ops_of_run c numRecords s
    have hlen : (queryCalls (insertRecords c numRecords s).trace).length = m := by
      rw [hq]; simp
    rw [hlen, hq]
    rfl

/-! ## Claims on the client operations -/

/-- C2: when `connect()` and the queries for all the indices `1..numRecords`
resolve, `insertRecords` issues exactly `numRecords` queries, for the indices
`1, 2, ..., numRecords` in this order, the one for index `i` carrying the values
`[name(i), type(i)]`; all of them write their row; and the client operations are
one `connect`, the `numRecords` queries, then one `end`.  For `numRecords = 3`
the rows written are `("Product 1","Type B")`, `("Product 2","Type C")`,
`("Product 3","Type A")`, in this order. -/
theorem full_run_inserts_all (c : Client σ ε) (numRecords : Nat) (s : σ)
    (hc : (c.connect s).outcome = Outcome.resolved)
    (hq : ∀ i, 1 ≤ i → i ≤ numRecords → queryOutcome c s i = Outcome.resolved) :
    queryCalls (insertRecords c numRecords s).trace =
      (List.range' 1 numRecords).map
        (fun i => (insertQuery, [productName i, productType i])) ∧
    insertedRows (insertRecords c numRecords s).trace =
      (List.range' 1 numRecords).map (fun i => [productName i, productType i]) ∧
    (queryCalls (insertRecords c numRecords s).trace).length = numRecords ∧
    clientOps (insertRecords c numRecords s).trace =
      Op.connect :: (List.replicate numRecords Op.query ++ [Op.end_]) ∧
    (clientOps (insertRecords c numRecords s).trace).count Op.end_ = 1 ∧
    (numRecords = 3 →
      insertedRows (insertRecords c numRecords s).trace =
        [["Product 1", "Type B"], ["Product 2", "Type C"], ["Product 3", "Type A"]]) := by
  have hcalls := queryCalls_all_resolved c numRecords s hc hq
  have hrows := insertedRows_all_resolved c numRecords s hc hq
  have hops := clientOps_all_resolved c numRecords s hc hq
  refine ⟨hcalls, hrows, ?_, hops, ?_, ?_⟩
  · rw [hcalls]; simp
  · rw [hops]
    simp [List.count_cons, List.count_append, List.count_replicate]
  · intro h3
    rw [hrows, h3]
    rfl

/-- C2, at the client whose operations all resolve, for three records. -/
theorem full_run_inserts_all_witness :
    insertedRows (insertRecords (scripted true 0 true) 3 0).trace =
        [["Product 1", "Type B"], ["Product 2", "Type C"], ["Product 3", "Type A"]] ∧
      clientOps (insertRecords (scripted true 0 true) 3 0).trace =
        [Op.connect, Op.query, Op.query, Op.query, Op.end_] :=
  have h := full_run_inserts_all (scripted true 0 true) 3 0 rfl
    (fun _ _ _ => rfl)
  ⟨h.2.2.2.2.2 rfl, h.2.2.2.1⟩

/-- C3: when `connect()` and the queries for the indices below `k` resolve and
the query for index `k` rejects, exactly `k` queries are issued, for the indices
`1..k` in this order, exactly the `k - 1` first of them write their row, and
after the query for index `k` the only client operation is `end()`: the failed
query is not issued again and no query is issued for an index above `k`. -/
theorem query_failure_aborts (c : Client σ ε) (numRecords : Nat) (s : σ) (k : Nat) (e : ε)
    (hc : (c.connect s).outcome = Outcome.resolved)
    (hk1 : 1 ≤ k) (hkN : k ≤ numRecords)
    (hq : ∀ j, 1 ≤ j → j < k → queryOutcome c s j = Outcome.resolved)
    (hf : queryOutcome c s k = Outcome.rejected e) :
    queryCalls (insertRecords c numRecords s).trace =
      (List.range' 1 k).map (fun j => (insertQuery, [productName j, productType j])) ∧
    (queryCalls (insertRecords c numRecords s).trace).length = k ∧
    insertedRows (insertRecords c numRecords s).trace =
      (List.range' 1 (k - 1)).map (fun j => [productName j, productType j]) ∧
    (insertedRows (insertRecords c numRecords s).trace).length = k - 1 ∧
    clientOps (insertRecords c numRecords s).trace =
      Op.connect :: (List.replicate k Op.query ++ [Op.end_]) := by
  have hcalls := queryCalls_query_rejected c numRecords s k e hc hk1 hkN hq hf
  have hrows := insertedRows_query_rejected c numRecords s k e hc hk1 hkN hq hf
  refine ⟨hcalls, ?_, hrows, ?_,
    clientOps_query_rejected c numRecords s k e hc hk1 hkN hq hf⟩
  · rw [hcalls]; simp
  · rw [hrows]; simp

/-- C3, at five records with the client that rejects the second query. -/
theorem query_failure_aborts_witness :
    queryCalls (insertRecords (scripted true 2 true) 5 0).trace =
        [(insertQuery, ["Product 1", "Type B"]), (insertQuery, ["Product 2", "Type C"])] ∧
      insertedRows (insertRecords (scripted true 2 true) 5 0).trace =
        [["Product 1", "Type B"]] ∧
      clientOps (insertRecords (scripted true 2 true) 5 0).trace =
        [Op.connect, Op.query, Op.query, Op.end_] :=
  have h := query_failure_aborts (scripted true 2 true) 5 0 2 "insert failed" rfl
    (by decide) (by decide)
    (fun j h1 h2 => by
      have hj : j = 1 := by omega
      subst hj
      rfl)
    rfl
  ⟨h.1, h.2.2.1, h.2.2.2.2⟩

/-- C4: when `connect()` rejects, no query is issued, no row is written, and
`end()` is still called, exactly once. -/
theorem connect_failure_inserts_nothing (c : Client σ ε) (numRecords : Nat) (s : σ) (e : ε)
    (hc : (c.connect s).outcome = Outcome.rejected e) :
    queryCalls (insertRecords c numRecords s).trace = [] ∧
    insertedRows (insertRecords c numRecords s).trace = [] ∧
    clientOps (insertRecords c numRecords s).trace = [Op.connect, Op.end_] ∧
    (clientOps (insertRecords c numRecords s).trace).count Op.end_ = 1 := by
  have hops := clientOps_connect_rejected c numRecords s e hc
  refine ⟨queryCalls_connect_rejected c numRecords s e hc,
    insertedRows_connect_rejected c numRecords s e hc, hops, ?_⟩
  rw [hops]
  rfl

/-- C4, at seven records with the client that refuses the connection. -/
theorem connect_failure_inserts_nothing_witness :
    queryCalls (insertRecords (scripted false 0 true) 7 0).trace = [] ∧
      insertedRows (insertRecords (scripted false 0 true) 7 0).trace = [] ∧
      clientOps (insertRecords (scripted false 0 true) 7 0).trace = [Op.connect, Op.end_] ∧
      (clientOps (insertRecords (scripted false 0 true) 7 0).trace).count Op.end_ = 1 :=
  connect_failure_inserts_nothing (scripted false 0 true) 7 0 "connection refused" rfl

/-- C5: whatever the client does, the client operations of a call are one
`connect`, then `m` queries for some `m ≤ numRecords`, then one `end`; so `end`
is called exactly once, it is the last client operation, and `connect` is called
exactly once. -/
theorem lifecycle_is_linear (c : Client σ ε) (numRecords : Nat) (s : σ) :
    ∃ m, m ≤ numRecords ∧
      clientOps (insertRecords c numRecords s).trace =
        Op.connect :: (List.replicate m Op.query ++ [Op.end_]) ∧
      (clientOps (insertRecords c numRecords s).trace).count Op.end_ = 1 ∧
      (clientOps (insertRecords c numRecords s).trace).count Op.connect = 1 ∧
      (clientOps (insertRecords c numRecords s).trace).getLast? = some Op.end_ := by
  obtain ⟨m, hm, hops, -⟩ := ops_of_run c numRecords s
  refine ⟨m, hm, hops, ?_, ?_, ?_⟩
  · rw [hops]
    simp [List.count_cons, List.count_append, List.count_replicate]
  · rw [hops]
    simp [List.count_cons, List.count_append, List.count_replicate]
  · rw [hops]
    simp [List.getLast?_cons, List.getLast?_append]

/-- C9: in every call, every `query` is passed the constant statement text
`INSERT INTO products (name, type) VALUES ($1, $2)` and a list of two values,
the name and then the type generated for one index `k` in `1..numRecords`. -/
theorem query_is_parameterized (c : Client σ ε) (numRecords : Nat) (s : σ)
    (sql : String) (values : List String) (o : Outcome ε)
    (h : Event.query sql values o ∈ (insertRecords c numRecords s).trace) :
    sql = "INSERT INTO products (name, type) VALUES ($1, $2)" ∧
    values.length = 2 ∧
    ∃ k, 1 ≤ k ∧ k ≤ numRecords ∧ values = [productName k, productType k] := by
  obtain ⟨m, hm, -, hcalls⟩ := ops_of_run c numRecords s
  have hmem : (sql, values) ∈ queryCalls (insertRecords c numRecords s).trace := by
    unfold queryCalls
    rw [List.mem_filterMap]
    exact ⟨_, h, rfl⟩
  rw [hcalls, List.mem_map] at hmem
  obtain ⟨k, hk, hkv⟩ := hmem
  rw [List.mem_range'_1] at hk
  have h1 : insertQuery = sql := congrArg Prod.fst hkv
  have h2 : insertValues k = values := congrArg Prod.snd hkv
  refine ⟨h1.symm, ?_, k, hk.1, by omega, h2.symm⟩
  rw [← h2]
  rfl

/-- C9, at the second query of a call whose operations all resolve. -/
theorem query_is_parameterized_witness :
    insertQuery = "INSERT INTO products (name, type) VALUES ($1, $2)" ∧
      ["Product 2", "Type C"].length = 2 ∧
      ∃ k, 1 ≤ k ∧ k ≤ 3 ∧ ["Product 2", "Type C"] = [productName k, productType k] :=
  query_is_parameterized (scripted true 0 true) 3 0 insertQuery ["Product 2", "Type C"]
    Outcome.resolved (by
      simp [insertRecords, tryBlock, catchBlock, finallyBlock, scripted, insertLoop]
      decide)

/-! ## Console output of a call -/

theorem summaryLine_head (n : Nat) : (summaryLine n).data.head? = some 'S' := by
  unfold summaryLine
  simp [String.data_append]

theorem insertedLine_head (i : Nat) : (insertedLine i).data.head? = some 'I' := by
  unfold insertedLine
  simp [String.data_append]

theorem summaryLine_ne_insertedLine (n i : Nat) : summaryLine n ≠ insertedLine i := by
  intro h
  have h1 := summaryLine_head n
  rw [h, insertedLine_head] at h1
  exact absurd h1 (by decide)

theorem summaryLine_ne_connected (n : Nat) : summaryLine n ≠ "Connected to the database" := by
  intro h
  have h1 := summaryLine_head n
  rw [h] at h1
  exact absurd h1 (by decide)

theorem summaryLine_ne_disconnected (n : Nat) :
    summaryLine n ≠ "Disconnected from the database" := by
  intro h
  have h1 := summaryLine_head n
  rw [h] at h1
  exact absurd h1 (by decide)

theorem disconnected_ne_insertedLine (i : Nat) :
    "Disconnected from the database" ≠ insertedLine i := by
  intro h
  have h1 := insertedLine_head i
  rw [← h] at h1
  exact absurd h1 (by decide)

theorem summaryLine_not_mem_endEvents (n : Nat) (o : Outcome ε) :
    summaryLine n ∉ logLines (endEvents o) := by
  cases o with
  | resolved =>
    show summaryLine n ∉ ["Disconnected from the database"]
    simpa using summaryLine_ne_disconnected n
  | rejected e =>
    show summaryLine n ∉ []
    simp

theorem summaryLine_not_mem_inserted (n i m : Nat) :
    summaryLine n ∉ (List.range' i m).map insertedLine := by
  intro h
  rw [List.mem_map] at h
  obtain ⟨k, -, hk⟩ := h
  exact summaryLine_ne_insertedLine n k hk.symm

theorem disconnected_mem_endEvents (o : Outcome ε) :
    "Disconnected from the database" ∈ logLines (endEvents o) ↔ o = Outcome.resolved := by
  cases o with
  | resolved =>
    show "Disconnected from the database" ∈ ["Disconnected from the database"] ↔ _
    simp
  | rejected e =>
    show "Disconnected from the database" ∈ [] ↔ _
    simp

theorem disconnected_not_mem_inserted (i m : Nat) :
    "Disconnected from the database" ∉ (List.range' i m).map insertedLine := by
  intro h
  rw [List.mem_map] at h
  obtain ⟨k, -, hk⟩ := h
  exact disconnected_ne_insertedLine k hk.symm

theorem logLines_all_resolved (c : Client σ ε) (numRecords : Nat) (s : σ)
    (hc : (c.connect s).outcome = Outcome.resolved)
    (hq : ∀ k, 1 ≤ k → k ≤ numRecords → queryOutcome c s k = Outcome.resolved) :
    logLines (insertRecords c numRecords s).trace =
      "Connected to the database" :: ((List.range' 1 numRecords).map insertedLine ++
        summaryLine numRecords :: logLines (endEvents (insertRecords c numRecords s).result)) := by
  rw [trace_all_resolved c numRecords s hc hq]
  have h2 := logLines_successSteps (ε := ε) 1 numRecords
  simp only [logLines] at h2
  simp [logLines, Event.line, h2, List.filterMap_append]

theorem errorReports_all_resolved (c : Client σ ε) (numRecords : Nat) (s : σ)
    (hc : (c.connect s).outcome = Outcome.resolved)
    (hq : ∀ k, 1 ≤ k → k ≤ numRecords → queryOutcome c s k = Outcome.resolved) :
    errorReports (insertRecords c numRecords s).trace = [] := by
  rw [trace_all_resolved c numRecords s hc hq]
  have h1 := errorReports_endEvents (insertRecords c numRecords s).result
  have h2 := errorReports_successSteps (ε := ε) 1 numRecords
  simp only [errorReports] at h1 h2
  simp [errorReports, Event.report, h1, h2, List.filterMap_append]

theorem logLines_query_rejected (c : Client σ ε) (numRecords : Nat) (s : σ) (k : Nat) (e : ε)
    (hc : (c.connect s).outcome = Outcome.resolved)
    (hk1 : 1 ≤ k) (hkN : k ≤ numRecords)
    (hq : ∀ j, 1 ≤ j → j < k → queryOutcome c s j = Outcome.resolved)
    (hf : queryOutcome c s k = Outcome.rejected e) :
    logLines (insertRecords c numRecords s).trace =
      "Connected to the database" :: ((List.range' 1 (k - 1)).map insertedLine ++
        logLines (endEvents (insertRecords c numRecords s).result)) := by
  rw [trace_query_rejected c numRecords s k e hc hk1 hkN hq hf]
  have h2 := logLines_successSteps (ε := ε) 1 (k - 1)
  simp only [logLines] at h2
  simp [logLines, Event.line, h2, List.filterMap_append]

theorem errorReports_query_rejected (c : Client σ ε) (numRecords : Nat) (s : σ) (k : Nat)
    (e : ε) (hc : (c.connect s).outcome = Outcome.resolved)
    (hk1 : 1 ≤ k) (hkN : k ≤ numRecords)
    (hq : ∀ j, 1 ≤ j → j < k → queryOutcome c s j = Outcome.resolved)
    (hf : queryOutcome c s k = Outcome.rejected e) :
    errorReports (insertRecords c numRecords s).trace = [("Error inserting records:", e)] := by
  rw [trace_query_rejected c numRecords s k e hc hk1 hkN hq hf]
  have h1 := errorReports_endEvents (insertRecords c numRecords s).result
  have h2 := errorReports_successSteps (ε := ε) 1 (k - 1)
  simp only [errorReports] at h1 h2
  simp [errorReports, Event.report, h1, h2, List.filterMap_append]

theorem logLines_connect_rejected (c : Client σ ε) (numRecords : Nat) (s : σ) (e : ε)
    (hc : (c.connect s).outcome = Outcome.rejected e) :
    logLines (insertRecords c numRecords s).trace =
      logLines (endEvents (insertRecords c numRecords s).result) := by
  rw [trace_connect_rejected c numRecords s e hc]
  simp [logLines, Event.line]

theorem errorReports_connect_rejected (c : Client σ ε) (numRecords : Nat) (s : σ) (e : ε)
    (hc : (c.connect s).outcome = Outcome.rejected e) :
    errorReports (insertRecords c numRecords s).trace = [("Error inserting records:", e)] := by
  rw [trace_connect_rejected c numRecords s e hc]
  have h1 := errorReports_endEvents (insertRecords c numRecords s).result
  simp only [errorReports] at h1
  simp [errorReports, Event.report, h1]

/-- A call succeeds or fails, and not both. -/
theorem succeeds_or_fails (c : Client σ ε) (numRecords : Nat) (s : σ) :
    Succeeds c numRecords s ∨ ∃ e, Fails c numRecords s e := by
  rcases run_cases c numRecords s with ⟨e, hc⟩ | ⟨hc, hq⟩ | ⟨hc, k, e, hk1, hkN, hq, hf⟩
  · exact Or.inr ⟨e, Or.inl hc⟩
  · exact Or.inl ⟨hc, hq⟩
  · exact Or.inr ⟨e, Or.inr ⟨k, hc, hk1, hkN, hq, hf⟩⟩

theorem errorReports_of_fails (c : Client σ ε) (numRecords : Nat) (s : σ) (e : ε)
    (h : Fails c numRecords s e) :
    errorReports (insertRecords c numRecords s).trace = [("Error inserting records:", e)] := by
  rcases h with hc | ⟨k, hc, hk1, hkN, hq, hf⟩
  · exact errorReports_connect_rejected c numRecords s e hc
  · exact errorReports_query_rejected c numRecords s k e hc hk1 hkN hq hf

theorem summary_absent_of_fails (c : Client σ ε) (numRecords : Nat) (s : σ) (e : ε)
    (h : Fails c numRecords s e) :
    summaryLine numRecords ∉ logLines (insertRecords c numRecords s).trace := by
  rcases h with hc | ⟨k, hc, hk1, hkN, hq, hf⟩
  · rw [logLines_connect_rejected c numRecords s e hc]
    exact summaryLine_not_mem_endEvents _ _
  · rw [logLines_query_rejected c numRecords s k e hc hk1 hkN hq hf]
    intro hmem
    rw [List.mem_cons, List.mem_append] at hmem
    rcases hmem with h1 | h2 | h3
    · exact summaryLine_ne_connected _ h1
    · exact summaryLine_not_mem_inserted _ _ _ h2
    · exact summaryLine_not_mem_endEvents _ _ h3

theorem disconnected_logged_iff (c : Client σ ε) (numRecords : Nat) (s : σ) :
    "Disconnected from the database" ∈ logLines (insertRecords c numRecords s).trace ↔
      (insertRecords c numRecords s).result = Outcome.resolved := by
  have hD : "Disconnected from the database" ≠ "Connected to the database" := by decide
  have hS : "Disconnected from the database" ≠ summaryLine numRecords :=
    fun h => summaryLine_ne_disconnected numRecords h.symm
  rcases run_cases c numRecords s with ⟨e, hc⟩ | ⟨hc, hq⟩ | ⟨hc, k, e, hk1, hkN, hq, hf⟩
  · rw [logLines_connect_rejected c numRecords s e hc]
    exact disconnected_mem_endEvents _
  · rw [logLines_all_resolved c numRecords s hc hq, ← disconnected_mem_endEvents]
    simp only [List.mem_cons, List.mem_append]
    constructor
    · rintro (h1 | h2 | h3 | h4)
      · exact absurd h1 hD
      · exact absurd h2 (disconnected_not_mem_inserted _ _)
      · exact absurd h3 hS
      · exact h4
    · exact fun h => Or.inr (Or.inr (Or.inr h))
  · rw [logLines_query_rejected c numRecords s k e hc hk1 hkN hq hf,
      ← disconnected_mem_endEvents]
    simp only [List.mem_cons, List.mem_append]
    constructor
    · rintro (h1 | h2 | h3)
      · exact absurd h1 hD
      · exact absurd h2 (disconnected_not_mem_inserted _ _)
      · exact h3
    · exact fun h => Or.inr (Or.inr h)

/-! ## Order of the error report and the release -/

theorem occursBefore_append_of_none (p q : Event ε → Bool) (pre rest : List (Event ε))
    (h : ∀ x ∈ pre, p x = false) :
    occursBefore p q (pre ++ rest) = occursBefore p q rest := by
  induction pre with
  | nil => rfl
  | cons x pre ih =>
    have hx : p x = false := h x (List.mem_cons_self _ _)
    have ih2 := ih (fun y hy => h y (List.mem_cons_of_mem _ hy))
    simp [occursBefore, hx, ih2]

theorem occursBefore_append_cons (p q : Event ε → Bool) (pre rest : List (Event ε))
    (x : Event ε) (hx : p x = true) (hq : rest.any q = true) :
    occursBefore p q (pre ++ x :: rest) = true := by
  induction pre with
  | nil => simp [occursBefore, hx, hq]
  | cons y pre ih => simp [occursBefore, ih]

theorem successSteps_no_end_no_error (i n : Nat) :
    ∀ x ∈ successSteps ε i n, x.isEnd = false ∧ x.isError = false := by
  induction n generalizing i with
  | zero => intro x hx; cases hx
  | succ n ih =>
    intro x hx
    simp only [successSteps, List.mem_cons] at hx
    rcases hx with rfl | rfl | hx
    · exact ⟨rfl, rfl⟩
    · exact ⟨rfl, rfl⟩
    · exact ih (i + 1) x hx

/-- The trace of a failing call: events without `end()` and without error
report, then the error report, then the events of `finally`. -/
theorem trace_of_fails (c : Client σ ε) (numRecords : Nat) (s : σ) (e : ε)
    (h : Fails c numRecords s e) :
    ∃ pre, (insertRecords c numRecords s).trace =
        pre ++ Event.error "Error inserting records:" e ::
          endEvents (insertRecords c numRecords s).result ∧
      ∀ x ∈ pre, x.isEnd = false ∧ x.isError = false := by
  rcases h with hc | ⟨k, hc, hk1, hkN, hq, hf⟩
  · refine ⟨[Event.connect (Outcome.rejected e)], ?_, ?_⟩
    · rw [trace_connect_rejected c numRecords s e hc]
      rfl
    · intro x hx
      rw [List.mem_singleton] at hx
      subst hx
      exact ⟨rfl, rfl⟩
  · refine ⟨Event.connect Outcome.resolved :: Event.log "Connected to the database" ::
      (successSteps ε 1 (k - 1) ++
        [Event.query insertQuery (insertValues k) (Outcome.rejected e)]), ?_, ?_⟩
    · rw [trace_query_rejected c numRecords s k e hc hk1 hkN hq hf]
      simp
    · intro x hx
      simp only [List.mem_cons, List.mem_append, List.mem_singleton, List.not_mem_nil,
        or_false] at hx
      rcases hx with rfl | rfl | hx | rfl
      · exact ⟨rfl, rfl⟩
      · exact ⟨rfl, rfl⟩
      · exact successSteps_no_end_no_error 1 (k - 1) x hx
      · exact ⟨rfl, rfl⟩

/-- C6, as amended: in every call in which `connect()` or a query rejects, the
error report is written first and `end()` is called right after it; no `end()`
call comes earlier than the report. -/
theorem error_reported_before_release (c : Client σ ε) (numRecords : Nat) (s : σ) (e : ε)
    (h : Fails c numRecords s e) :
    (∃ pre, (insertRecords c numRecords s).trace =
        pre ++ Event.error "Error inserting records:" e ::
          endEvents (insertRecords c numRecords s).result ∧
      ∀ x ∈ pre, x.isEnd = false ∧ x.isError = false) ∧
    occursBefore Event.isError Event.isEnd (insertRecords c numRecords s).trace = true ∧
    occursBefore Event.isEnd Event.isError (insertRecords c numRecords s).trace = false := by
  obtain ⟨pre, htr, hpre⟩ := trace_of_fails c numRecords s e h
  refine ⟨⟨pre, htr, hpre⟩, ?_, ?_⟩
  · rw [htr]
    apply occursBefore_append_cons _ _ _ _ _ rfl
    cases (insertRecords c numRecords s).result <;> rfl
  · rw [htr, occursBefore_append_of_none _ _ _ _ (fun x hx => (hpre x hx).1)]
    cases (insertRecords c numRecords s).result <;> rfl

/-- C6, as amended, at the client that refuses the connection. -/
theorem error_reported_before_release_witness :
    occursBefore Event.isError Event.isEnd
        (insertRecords (scripted false 0 true) 1 0).trace = true ∧
      occursBefore Event.isEnd Event.isError
        (insertRecords (scripted false 0 true) 1 0).trace = false :=
  (error_reported_before_release (scripted false 0 true) 1 0 "connection refused"
    (Or.inl rfl)).2

/-- C6 fails as stated: when the connection is refused, the error report is the
second event of the call and the call of `end()` the third, so `end()` is not
called before the error is reported. -/
theorem release_before_report_counterexample :
    Fails (scripted false 0 true) 1 0 "connection refused" ∧
      (insertRecords (scripted false 0 true) 1 0).trace =
        [Event.connect (Outcome.rejected "connection refused"),
          Event.error "Error inserting records:" "connection refused",
          Event.end_ Outcome.resolved,
          Event.log "Disconnected from the database"] ∧
      occursBefore Event.isEnd Event.isError
        (insertRecords (scripted false 0 true) 1 0).trace = false :=
  ⟨Or.inl rfl, rfl, rfl⟩

/-! ## Claims on the error report -/

/-- C7, as amended: when the query for index `k` rejects with `e`, the one error
report of the call is the label `Error inserting records:` with the value `e`
the client rejected with, and `insertRecords` adds nothing to it.  So the
report identifies the index as far as `e` does and no further: two calls that
fail at a query, at whatever indices, write the same error report if and only
if their queries rejected with the same value. -/
theorem error_report_is_client_error {τ : Type}
    (c₁ : Client σ ε) (n₁ : Nat) (s₁ : σ) (k₁ : Nat) (e₁ : ε)
    (c₂ : Client τ ε) (n₂ : Nat) (s₂ : τ) (k₂ : Nat) (e₂ : ε)
    (h₁ : QueryFails c₁ n₁ s₁ k₁ e₁) (h₂ : QueryFails c₂ n₂ s₂ k₂ e₂) :
    errorReports (insertRecords c₁ n₁ s₁).trace = [("Error inserting records:", e₁)] ∧
    errorReports (insertRecords c₂ n₂ s₂).trace = [("Error inserting records:", e₂)] ∧
    (errorReports (insertRecords c₁ n₁ s₁).trace =
        errorReports (insertRecords c₂ n₂ s₂).trace ↔ e₁ = e₂) := by
  have r₁ := errorReports_query_rejected c₁ n₁ s₁ k₁ e₁ h₁.1 h₁.2.1 h₁.2.2.1 h₁.2.2.2.1
    h₁.2.2.2.2
  have r₂ := errorReports_query_rejected c₂ n₂ s₂ k₂ e₂ h₂.1 h₂.2.1 h₂.2.2.1 h₂.2.2.2.1
    h₂.2.2.2.2
  refine ⟨r₁, r₂, ?_⟩
  rw [r₁, r₂]
  constructor
  · intro h
    exact congrArg Prod.snd (List.head_eq_of_cons_eq h)
  · intro h
    rw [h]

/-- C7, as amended, at three records and the indices 1 and 2: the two calls of
the client that rejects with a fixed value write the same report, the two calls
of the client whose error value names the row write different reports. -/
theorem error_report_is_client_error_witness :
    errorReports (insertRecords (scripted true 1 true) 3 0).trace =
        errorReports (insertRecords (scripted true 2 true) 3 0).trace ∧
      errorReports (insertRecords (echoing 1) 3 0).trace =
        [("Error inserting records:", "duplicate key: Product 1")] ∧
      errorReports (insertRecords (echoing 2) 3 0).trace =
        [("Error inserting records:", "duplicate key: Product 2")] ∧
      errorReports (insertRecords (echoing 1) 3 0).trace ≠
        errorReports (insertRecords (echoing 2) 3 0).trace :=
  have fixed := error_report_is_client_error
    (scripted true 1 true) 3 0 1 "insert failed" (scripted true 2 true) 3 0 2 "insert failed"
    ⟨rfl, by decide, by decide, fun j h1 h2 => absurd h2 (by omega), rfl⟩
    ⟨rfl, by decide, by decide, fun j h1 h2 => by
      have hj : j = 1 := by omega
      subst hj
      rfl, rfl⟩
  have named := error_report_is_client_error
    (echoing 1) 3 0 1 "duplicate key: Product 1" (echoing 2) 3 0 2 "duplicate key: Product 2"
    ⟨rfl, by decide, by decide, fun j h1 h2 => absurd h2 (by omega), rfl⟩
    ⟨rfl, by decide, by decide, fun j h1 h2 => by
      have hj : j = 1 := by omega
      subst hj
      rfl, rfl⟩
  ⟨fixed.2.2.mpr rfl, named.1, named.2.1, fun h => absurd (named.2.2.mp h) (by decide)⟩

/-- C7 fails as stated: a call whose first query rejects and a call whose second
query rejects, with the same error value, write the same error report. -/
theorem error_report_index_counterexample :
    QueryFails (scripted true 1 true) 2 0 1 "insert failed" ∧
      QueryFails (scripted true 2 true) 2 0 2 "insert failed" ∧
      errorReports (insertRecords (scripted true 1 true) 2 0).trace =
        [("Error inserting records:", "insert failed")] ∧
      errorReports (insertRecords (scripted true 2 true) 2 0).trace =
        [("Error inserting records:", "insert failed")] := by
  have h1 : QueryFails (scripted true 1 true) 2 0 1 "insert failed" :=
    ⟨rfl, by decide, by decide, fun j h1 h2 => absurd h2 (by omega), rfl⟩
  have h2 : QueryFails (scripted true 2 true) 2 0 2 "insert failed" :=
    ⟨rfl, by decide, by decide, fun j h1 h2 => by
      have hj : j = 1 := by omega
      subst hj
      rfl, rfl⟩
  refine ⟨h1, h2, ?_, ?_⟩ <;>
  simp [insertRecords, tryBlock, catchBlock, finallyBlock, scripted, insertLoop,
    errorReports, Event.report]

/-! ## Claims on the log and on the result -/

/-- C8, as amended: when `connect()` and all `numRecords` queries resolve, the
call logs the connection line, one confirmation line `Inserted: <name>, <type>`
per index `1..numRecords` in index order, each right after its own query
resolved, then the summary line with the count `numRecords`, once, and no error
report; when `connect()` or a query rejects, it writes one error report and no
summary line.  In both cases the disconnect confirmation is logged exactly when
`end()` resolves.  The summary line is logged iff `connect()` and all
`numRecords` queries resolve. -/
theorem log_output (c : Client σ ε) (numRecords : Nat) (s : σ) :
    (Succeeds c numRecords s →
      (insertRecords c numRecords s).trace =
        Event.connect Outcome.resolved :: Event.log "Connected to the database" ::
          (successSteps ε 1 numRecords ++ Event.log (summaryLine numRecords) ::
            endEvents (insertRecords c numRecords s).result) ∧
      logLines (insertRecords c numRecords s).trace =
        "Connected to the database" :: ((List.range' 1 numRecords).map
            (fun i => "Inserted: " ++ productName i ++ ", " ++ productType i) ++
          ("Successfully inserted " ++ Nat.repr numRecords ++
              " records into the products table") ::
            logLines (endEvents (insertRecords c numRecords s).result)) ∧
      (logLines (insertRecords c numRecords s).trace).count (summaryLine numRecords) = 1 ∧
      errorReports (insertRecords c numRecords s).trace = []) ∧
    (∀ e, Fails c numRecords s e →
      errorReports (insertRecords c numRecords s).trace = [("Error inserting records:", e)] ∧
      summaryLine numRecords ∉ logLines (insertRecords c numRecords s).trace) ∧
    ("Disconnected from the database" ∈ logLines (insertRecords c numRecords s).trace ↔
      (insertRecords c numRecords s).result = Outcome.resolved) ∧
    (summaryLine numRecords ∈ logLines (insertRecords c numRecords s).trace ↔
      Succeeds c numRecords s) := by
  refine ⟨fun hs => ?_, fun e hf => ?_, disconnected_logged_iff c numRecords s, ?_⟩
  · have hlog := logLines_all_resolved c numRecords s hs.1 hs.2
    refine ⟨trace_all_resolved c numRecords s hs.1 hs.2, hlog, ?_,
      errorReports_all_resolved c numRecords s hs.1 hs.2⟩
    rw [hlog, List.count_cons, List.count_append, List.count_cons,
      List.count_eq_zero_of_not_mem (summaryLine_not_mem_inserted _ _ _),
      List.count_eq_zero_of_not_mem (summaryLine_not_mem_endEvents _ _)]
    have hne : ("Connected to the database" == summaryLine numRecords) = false := by
      rw [beq_eq_false_iff_ne]
      exact fun h => summaryLine_ne_connected numRecords h.symm
    simp [hne]
  · exact ⟨errorReports_of_fails c numRecords s e hf,
      summary_absent_of_fails c numRecords s e hf⟩
  · constructor
    · intro hmem
      rcases succeeds_or_fails c numRecords s with hs | ⟨e, hf⟩
      · exact hs
      · exact absurd hmem (summary_absent_of_fails c numRecords s e hf)
    · intro hs
      rw [logLines_all_resolved c numRecords s hs.1 hs.2]
      simp

/-- C8, as amended, at two records: the log of the call whose operations all
resolve, and the absent summary line of the call whose second query rejects. -/
theorem log_output_witness :
    logLines (insertRecords (scripted true 0 true) 2 0).trace =
        ["Connected to the database", "Inserted: Product 1, Type B",
          "Inserted: Product 2, Type C",
          "Successfully inserted 2 records into the products table",
          "Disconnected from the database"] ∧
      summaryLine 2 ∉ logLines (insertRecords (scripted true 2 true) 2 0).trace :=
  have h1 := (log_output (scripted true 0 true) 2 0).1 ⟨rfl, fun _ _ _ => rfl⟩
  have h2 := (log_output (scripted true 2 true) 2 0).2.1 "insert failed"
    (Or.inr ⟨2, rfl, by decide, by decide, fun j h1 h2 => by
      have hj : j = 1 := by omega
      subst hj
      rfl, rfl⟩)
  have hr : (insertRecords (scripted true 0 true) 2 0).result = Outcome.resolved :=
    (insertRecords_result (scripted true 0 true) 2 0).trans rfl
  ⟨h1.2.1.trans (by rw [hr]; rfl), h2.2⟩

/-- C8 fails as stated: when `connect()` rejects and then `end()` rejects too,
the call fails and logs no line at all, hence no disconnect confirmation. -/
theorem log_output_counterexample :
    Fails (scripted false 0 false) 2 0 "connection refused" ∧
      logLines (insertRecords (scripted false 0 false) 2 0).trace = [] ∧
      "Disconnected from the database" ∉
        logLines (insertRecords (scripted false 0 false) 2 0).trace :=
  ⟨Or.inl rfl, rfl, by
    rw [show logLines (insertRecords (scripted false 0 false) 2 0).trace = [] from rfl]
    exact List.not_mem_nil _⟩

/-- C10: the promise of `insertRecords` settles the way the promise of its
`end()` call does.  So when `end()` resolves the call resolves, also when
`connect()` or a query rejected, and the rejection is then seen in the error
report only; and the call rejects only with an error that `end()` rejected
with. -/
theorem failure_not_propagated (c : Client σ ε) (numRecords : Nat) (s : σ) :
    (insertRecords c numRecords s).result =
      (c.end_ (catchBlock (tryBlock c numRecords s)).state).outcome ∧
    ((∀ st, (c.end_ st).outcome = Outcome.resolved) →
      (insertRecords c numRecords s).result = Outcome.resolved) ∧
    (∀ e, Fails c numRecords s e →
      errorReports (insertRecords c numRecords s).trace =
        [("Error inserting records:", e)]) ∧
    (∀ e, (insertRecords c numRecords s).result = Outcome.rejected e →
      Event.end_ (Outcome.rejected e) ∈ (insertRecords c numRecords s).trace ∧
      ∃ st, (c.end_ st).outcome = Outcome.rejected e) := by
  have hres := insertRecords_result c numRecords s
  refine ⟨hres, fun hend => ?_, fun e hf => errorReports_of_fails c numRecords s e hf,
    fun e he => ⟨?_, _, hres ▸ he⟩⟩
  · rw [hres]
    exact hend _
  · rw [insertRecords_trace, he]
    simp [endEvents]

/-- C10, at the client that refuses the connection and at the one that rejects
the first query: both calls resolve. -/
theorem failure_not_propagated_witness :
    (insertRecords (scripted false 0 true) 3 0).result = Outcome.resolved ∧
      (insertRecords (scripted true 1 true) 3 0).result = Outcome.resolved :=
  ⟨(failure_not_propagated (scripted false 0 true) 3 0).2.1 (fun _ => rfl),
    (failure_not_propagated (scripted true 1 true) 3 0).2.1 (fun _ => rfl)⟩

end

end PgCompare
